import Mathlib

/-!
Verification development for the `prompting` dataset adapters
(`prompting/tools/dataset.py`).

The Python module is a collection of dataset-fetching adapters
(`MockDataset`, `CodingDataset`, `WikiDataset`, `StackOverflowDataset`,
`DateQADataset`, `MathDataset`) plus a `chunk` utility.  Network calls and
third-party library calls are modelled as explicit inputs (functions from
attempt indices or dates to fetched data); the control flow, string
processing and random-number consumption of the Python code are embedded
directly.

Randomness model: a pseudo-random generator is a deterministic stream of
naturals (`List Nat`), consumed one element per `randint`/`choice` call.
Two generators seeded identically yield identical streams, so "same seed"
is modelled as "same stream".  The module-global `random` source is a
second, independent stream.

Wall-clock time: `next()` reads the clock on entry (`t0`) and on return
(`t1`) and stores `t1 - t0` as `fetch_time`; the two readings are explicit
`Int` parameters, with monotonicity (`t0 ≤ t1`) as a hypothesis where
needed.
-/

namespace Dataset

/-- Python runtime errors that the embedded code paths can raise. -/
inductive PyError where
  | unboundLocal
  | typeError
  | indexError
deriving DecidableEq

/-! ### Random-stream primitives -/

/-- Consume one draw from a random stream (empty stream yields 0). -/
def take1 (s : List Nat) : Nat × List Nat := (s.headD 0, s.tail)

/-- Model of `random.Random.randint(a, b)`: one draw mapped into `[a, b]`. -/
def pyRandint (a b : Nat) (s : List Nat) : Nat × List Nat :=
  let t := take1 s
  (a + t.1 % (b + 1 - a), t.2)

/-- Model of `random.Random.choice(xs)`: one draw selects an element of
`xs`; choosing from an empty sequence yields `none` (Python raises
`IndexError` there, which callers map to `PyError.indexError`). -/
def pyChoice {α : Type} (xs : List α) (s : List Nat) : Option α × List Nat :=
  let t := take1 s
  if h : 0 < xs.length then
    (some (xs.get ⟨t.1 % xs.length, Nat.mod_lt t.1 h⟩), t.2)
  else (none, t.2)

/-! ### Python string helpers -/

/-- Number of words of a Python string as counted by `len(s.split())`:
the number of maximal runs of non-whitespace characters. -/
def pyWordCount (s : String) : Nat :=
  (s.toList.foldl
    (fun (acc : Nat × Bool) c =>
      if c.isWhitespace then (acc.1, false)
      else if acc.2 then acc else (acc.1 + 1, true))
    ((0 : Nat), false)).1

/-- Characters treated as line boundaries by Python `str.splitlines`. -/
def lineBreakChar (c : Char) : Bool :=
  c = '\n' || c = '\r' || c = '\x0b' || c = '\x0c' ||
  c = '\x1c' || c = '\x1d' || c = '\x1e' || c = '\x85' ||
  c = '\u2028' || c = '\u2029'

/-- Helper for `pySplitlines`: accumulates the current line (reversed). -/
def pySplitlinesAux : List Char → List Char → List (List Char)
  | [], cur => if cur.isEmpty then [] else [cur.reverse]
  | '\r' :: '\n' :: rest, cur => cur.reverse :: pySplitlinesAux rest []
  | c :: rest, cur =>
    if lineBreakChar c then cur.reverse :: pySplitlinesAux rest []
    else pySplitlinesAux rest (c :: cur)

/-- Model of Python `str.splitlines()`. -/
def pySplitlines (s : String) : List String :=
  (pySplitlinesAux s.toList []).map List.asString

/-- Does `l` start with the list `pre`? -/
def leadMatch : List Char → List Char → Bool
  | [], _ => true
  | _ :: _, [] => false
  | a :: as, b :: bs => a = b && leadMatch as bs

/-- Does `l` contain `needle` as a contiguous sub-list? -/
def containsSub (needle : List Char) : List Char → Bool
  | [] => leadMatch needle []
  | l@(_ :: rest) => leadMatch needle l || containsSub needle rest

/-- Model of Python `needle in hay` on strings (substring containment). -/
def pySubstr (needle hay : String) : Bool :=
  containsSub needle.toList hay.toList

/-- Drop characters of `chars` from both ends of a character list.
This is the semantics of Python `str.strip(chars)`: it removes
characters belonging to the set, not a literal affix. -/
def stripL (chars l : List Char) : List Char :=
  (((l.dropWhile (fun c => decide (c ∈ chars))).reverse).dropWhile
    (fun c => decide (c ∈ chars))).reverse

/-- Model of Python `s.strip(chars)`. -/
def pyStripChars (chars : List Char) (s : String) : String :=
  (stripL chars s.toList).asString

/-- ASCII lowercase conversion, the behaviour of Python `str.lower()`
on the strings this module handles. -/
def lowerStr (s : String) : String :=
  (s.toList.map Char.toLower).asString

/-- Helper for `pySplit`: split at each occurrence of the non-empty
separator `s0 :: srest`, accumulating the current segment (reversed).
The first argument is recursion fuel; every step consumes at least one
character, so fuel equal to the input length always suffices (the
out-of-fuel branch is unreachable when called that way). -/
def splitOnAuxL (s0 : Char) (srest : List Char) :
    Nat → List Char → List Char → List (List Char)
  | _, [], cur => [cur.reverse]
  | 0, l, cur => [cur.reverse ++ l]
  | fuel + 1, c :: rest, cur =>
    if leadMatch (s0 :: srest) (c :: rest) then
      cur.reverse :: splitOnAuxL s0 srest fuel (rest.drop srest.length) []
    else splitOnAuxL s0 srest fuel rest (c :: cur)

/-- Model of Python `text.split(sep)` for non-empty `sep` (Python raises
`ValueError` on an empty separator; that case is mapped to `[text]` and is
excluded by hypothesis wherever it matters). -/
def pySplit (text sep : String) : List String :=
  match sep.toList with
  | [] => [text]
  | s0 :: srest =>
    (splitOnAuxL s0 srest text.toList.length text.toList []).map List.asString

/-- Model of Python `sep.join(xs)`. -/
def joinSep (sep : String) : List String → String
  | [] => ""
  | [x] => x
  | x :: rest => x ++ sep ++ joinSep sep rest

/-! ### `chunk` (module-level utility) -/

/-- The non-blank segments of `text.split(sep)`:
`[chunk for chunk in text.split(sep) if chunk.strip()]`. -/
def pySegments (text sep : String) : List String :=
  (pySplit text sep).filter (fun c => c.toList.any (fun ch => !ch.isWhitespace))

/-- Model of `chunk(text, sep, n_chunks)` with the randomly drawn start
index `startChunk` made explicit (the code draws
`start_chunk = random.randint(0, len(chunks) - n_chunks)`):
`sep.join(chunks[start_chunk : start_chunk + n_chunks])`. -/
def pyChunk (text sep : String) (nChunks startChunk : Nat) : String :=
  joinSep sep (((pySegments text sep).drop startChunk).take nChunks)

/-! ### MockDataset -/

/-- The record returned by `MockDataset.next()`, as a field-name/value
association list: `{"text": "What is the capital of Texas?"}`. -/
def mockNext : List (String × String) :=
  [("text", "What is the capital of Texas?")]

/-! ### CodingDataset -/

/-- A streamed code sample; the only field the adapter inspects is `code`. -/
structure CodeRecord where
  code : String
deriving DecidableEq

/-- The line-count filter of `CodingDataset.next`:
`min_lines <= len(code["code"].splitlines()) <= max_lines`. -/
def codeLineOk (minLines maxLines : Nat) (r : CodeRecord) : Bool :=
  minLines ≤ (pySplitlines r.code).length &&
    (pySplitlines r.code).length ≤ maxLines

/-- The unbounded `while True` loop of `CodingDataset.next`, run over the
(lazily shuffled) stream: pull samples, discard those failing the
line-count filter, return the first that passes.  An exhausted stream
(`StopIteration`) yields `none`. -/
def codingNextAux (minLines maxLines : Nat) : List CodeRecord → Option CodeRecord
  | [] => none
  | c :: rest =>
    if codeLineOk minLines maxLines c then some c
    else codingNextAux minLines maxLines rest

/-- `CodingDataset.next(min_lines, max_lines)` with explicit clock
readings: attaches `fetch_time = time.time() - t0` to the returned
sample. -/
def codingNext (stream : List CodeRecord) (minLines maxLines : Nat)
    (t0 t1 : Int) : Option (CodeRecord × Int) :=
  (codingNextAux minLines maxLines stream).map (fun r => (r, t1 - t0))

/-! ### WikiDataset -/

/-- The character set passed to `.strip("Category:")` in
`get_random_wikipedia_article`. -/
def wikiStripSet : List Char := "Category:".toList

/-- The category post-processing of `get_random_wikipedia_article`:
`cat.get("title", "").strip("Category:")` over the category titles,
then dropping any category with `"article" in cat.lower()`. -/
def wikiCategories (titles : List String) : List String :=
  (titles.map (fun t => pyStripChars wikiStripSet t)).filter
    (fun cat => !(pySubstr "article" (lowerStr cat)))

/-- The message of the exception raised by `WikiDataset.next` on
exhaustion. -/
def wikiRaiseMsg (minWords maxTries : Nat) : String :=
  "Could not find an article with length >= " ++ toString minWords ++
    " words after " ++ toString maxTries ++ " tries."

/-- The retry loop of `WikiDataset.next()` called with `info=None` and
default `subset=False`; `fetch i` is the combined section text
(`"\n".join(info["sections"].values())`) produced by the `i`-th fetch of a
random article plus its content.  Mirrors the source: fetch, increment
`tries`, `break` when the word count reaches `min_length_words`, and after
the loop `raise` whenever `tries == max_tries`.  The loop guard
`tries < max_tries` is carried as fuel (`fuel = max_tries - tries`, so
fuel 0 means the guard fails and the post-loop check
`tries == max_tries` raises). -/
def wikiNextAux (fetch : Nat → String) (minWords maxTries : Nat) :
    Nat → Nat → Except String String
  | 0, _ => .error (wikiRaiseMsg minWords maxTries)
  | fuel + 1, tries =>
    let text := fetch tries
    if minWords ≤ pyWordCount text then
      if tries + 1 = maxTries then .error (wikiRaiseMsg minWords maxTries)
      else .ok text
    else wikiNextAux fetch minWords maxTries fuel (tries + 1)

/-- `WikiDataset.next()` (with `info=None`, `subset=False`) with explicit
clock readings: on success returns the article text together with
`fetch_time = time.time() - t0`. -/
def wikiNext (fetch : Nat → String) (minWords maxTries : Nat)
    (t0 t1 : Int) : Except String (String × Int) :=
  (wikiNextAux fetch minWords maxTries maxTries 0).map
    (fun text => (text, t1 - t0))

/-! ### StackOverflowDataset -/

/-- The warning text logged by `get_stack_answer` on an empty answer
list. -/
def stackWarning : String := "No answers found for the question!"

/-- `StackOverflowDataset.get_stack_answer`, over the list of answer
bodies returned by the answers API call (already sorted by votes):
logs a warning when the list is empty, then unconditionally indexes
`answers[0]` (raising `IndexError` when empty) and strips HTML from the
body via `soup.get_text` (the external parser, passed as `getText`).
Returns the log lines together with the outcome. -/
def getStackAnswer (getText : String → String) (answers : List String) :
    List String × Except PyError String :=
  let warns := if answers.isEmpty then [stackWarning] else []
  match answers with
  | [] => (warns, .error .indexError)
  | a :: _ => (warns, .ok (getText a))

/-- The record returned by `StackOverflowDataset.get_stack_question`. -/
structure StackRecord where
  question : String
  answer : String
deriving DecidableEq

/-- `StackOverflowDataset.next()` for a popped question with the given
title and answers, with explicit clock readings. -/
def stackNext (getText : String → String) (questionTitle : String)
    (answers : List String) (t0 t1 : Int) :
    Except PyError (StackRecord × Int) :=
  match getStackAnswer getText answers with
  | (_, .error e) => .error e
  | (_, .ok ans) => .ok ({ question := questionTitle, answer := ans }, t1 - t0)

/-! ### DateQADataset -/

/-- A hyperlink inside an event list item; `title` is the value of the
`title` attribute (`link.get("title")`, `none` when absent). -/
structure DQLink where
  title : Option String
deriving DecidableEq

/-- One `li` entry of an events list: its text and its `a` links. -/
structure DQEntry where
  text : String
  links : List DQLink
deriving DecidableEq

/-- The parsed Wikipedia "on this day" page for one date: HTTP status and
the entry list under each of the `Events` / `Births` / `Deaths` spans
(`none` when the span is absent). -/
structure DayPage where
  status : Nat
  events : Option (List DQEntry)
  births : Option (List DQEntry)
  deaths : Option (List DQEntry)

/-- The `available_sections` computation: the names present among
`["Events", "Births", "Deaths"]`, paired with their entry lists. -/
def DayPage.available (p : DayPage) : List (String × List DQEntry) :=
  (match p.events with | some l => [("Events", l)] | none => []) ++
  (match p.births with | some l => [("Births", l)] | none => []) ++
  (match p.deaths with | some l => [("Deaths", l)] | none => [])

/-- Full English month name, as produced by `strftime("%B")`. -/
def monthName : Nat → String
  | 1 => "January" | 2 => "February" | 3 => "March" | 4 => "April"
  | 5 => "May" | 6 => "June" | 7 => "July" | 8 => "August"
  | 9 => "September" | 10 => "October" | 11 => "November" | 12 => "December"
  | _ => ""

/-- Zero-padded two-digit day, as produced by `strftime("%d")`. -/
def pad2 (n : Nat) : String :=
  if n < 10 then "0" ++ toString n else toString n

/-- The fixed year used by `get_random_event` (`year = 2000`). -/
def dqYear : Nat := 2000

/-- The day-count computation of `get_random_event`:
31 for months in `(1, 3, 5, 7, 8, 10, 12)`, else 30, except February
which gets `28 + int(year % 4 == 0)` for the fixed year. -/
def monthDays (month : Nat) : Nat :=
  let d := if month = 1 ∨ month = 3 ∨ month = 5 ∨ month = 7 ∨ month = 8 ∨
      month = 10 ∨ month = 12 then 31 else 30
  if month ≠ 2 then d else 28 + (if dqYear % 4 = 0 then 1 else 0)

/-- The record built by `get_random_event`. -/
structure DQRecord where
  date : String
  event : String
  next_page : Option String
  sectionName : String
deriving DecidableEq

/-- The date generation and page fetch at the top of one loop iteration
of `get_random_event`: draw month and day from the private generator and
fetch the page for that date.  Returns
`(month, day, page, remaining private stream)`. -/
def dqProbe (fetch : Nat → Nat → DayPage) (priv : List Nat) :
    Nat × Nat × DayPage × List Nat :=
  let m := pyRandint 1 12 priv
  let d := pyRandint 1 (monthDays m.1) m.2
  (m.1, d.1, fetch m.1 d.1, d.2)

/-- Outcome of one iteration of the `get_random_event` loop. -/
inductive DQStep where
  | retry (priv glob : List Nat)
  | done (res : Except PyError DQRecord) (priv glob : List Nat)

/-- The tail of one loop iteration once a non-empty entry list has been
found: `selected_event = random.choice(events)` draws from the GLOBAL
random source, then `links = selected_event.find_all("a")`; when links
exist, `link = self.rng.choice(links)` draws from the private generator;
when no links exist the later `link.get("title")` hits an unbound local
variable. -/
def dqSelect (month day : Nat) (sectName : String) (entries : List DQEntry)
    (p3 glob : List Nat) : DQStep :=
  match pyChoice entries glob with
  | (none, g1) => .done (.error .indexError) p3 g1
  | (some entry, g1) =>
    if entry.links.isEmpty then .done (.error .unboundLocal) p3 g1
    else
      match pyChoice entry.links p3 with
      | (none, p4) => .done (.error .indexError) p4 g1
      | (some link, p4) =>
        .done (.ok { date := monthName month ++ " " ++ pad2 day,
                     event := entry.text,
                     next_page := link.title,
                     sectionName := sectName }) p4 g1

/-- One iteration of the `while tries < self.max_tries` loop of
`get_random_event`: generate a date, fetch the page, `continue` on a
non-200 status, choose a present section with the private generator
(`IndexError` when none is present), `continue` when the section's entry
list is empty, then select an event (see `dqSelect`). -/
def dqIter (fetch : Nat → Nat → DayPage) (priv glob : List Nat) : DQStep :=
  let pr := dqProbe fetch priv
  if pr.2.2.1.status ≠ 200 then .retry pr.2.2.2 glob
  else
    match pyChoice pr.2.2.1.available pr.2.2.2 with
    | (none, p3) => .done (.error .indexError) p3 glob
    | (some sect, p3) =>
      if sect.2.isEmpty then .retry p3 glob
      else dqSelect pr.1 pr.2.1 sect.1 sect.2 p3 glob

/-- The bounded retry loop of `get_random_event`; falling off the loop
end returns Python `None`, modelled as `.ok none`. -/
def dqLoop (fetch : Nat → Nat → DayPage) :
    Nat → List Nat → List Nat →
      Except PyError (Option DQRecord) × List Nat × List Nat
  | 0, priv, glob => (.ok none, priv, glob)
  | fuel + 1, priv, glob =>
    match dqIter fetch priv glob with
    | .retry p g => dqLoop fetch fuel p g
    | .done (.error e) p g => (.error e, p, g)
    | .done (.ok r) p g => (.ok (some r), p, g)

/-- `DateQADataset.get_random_event()` run with private stream `priv`,
global stream `glob`, and page responses `fetch`. -/
def dqGetRandomEvent (fetch : Nat → Nat → DayPage) (maxTries : Nat)
    (priv glob : List Nat) :
    Except PyError (Option DQRecord) × List Nat × List Nat :=
  dqLoop fetch maxTries priv glob

/-- `DateQADataset.next()`: calls `get_random_event` and then executes
`info["fetch_time"] = time.time() - t0`; when `get_random_event` returned
`None` this item assignment raises `TypeError`. -/
def dqNext (fetch : Nat → Nat → DayPage) (maxTries : Nat)
    (priv glob : List Nat) (t0 t1 : Int) :
    Except PyError (DQRecord × Int) :=
  match (dqGetRandomEvent fetch maxTries priv glob).1 with
  | .error e => .error e
  | .ok none => .error .typeError
  | .ok (some r) => .ok (r, t1 - t0)

/-- Private-stream shadow of one `get_random_event` iteration: the
control flow up to (and excluding) the global-source event selection,
which depends only on `fetch` and the private stream. -/
inductive DQPStep where
  | retry (priv : List Nat)
  | fail (priv : List Nat)
  | select (date sect : String) (priv : List Nat)

/-- Shadow of `dqIter` that ignores the global stream: which branch the
iteration takes, and the date/section values of a returning iteration,
are functions of `fetch` and the private stream alone. -/
def dqIterShadow (fetch : Nat → Nat → DayPage) (priv : List Nat) : DQPStep :=
  let pr := dqProbe fetch priv
  if pr.2.2.1.status ≠ 200 then .retry pr.2.2.2
  else
    match pyChoice pr.2.2.1.available pr.2.2.2 with
    | (none, p3) => .fail p3
    | (some sect, p3) =>
      if sect.2.isEmpty then .retry p3
      else .select (monthName pr.1 ++ " " ++ pad2 pr.2.1) sect.1 p3

/-- Shadow of `dqLoop`: the date and section of a successful run, as a
function of the private stream alone. -/
def dqShadowLoop (fetch : Nat → Nat → DayPage) :
    Nat → List Nat → Option (String × String)
  | 0, _ => none
  | fuel + 1, priv =>
    match dqIterShadow fetch priv with
    | .retry p => dqShadowLoop fetch fuel p
    | .fail _ => none
    | .select d s _ => some (d, s)

/-! ### MathDataset -/

/-- Symbolic expressions, the shape of `sympy` values relevant here:
numerals, free symbols, sums and products. -/
inductive SymExpr where
  | num (n : Int)
  | sym (name : String)
  | add (a b : SymExpr)
  | mul (a b : SymExpr)
deriving DecidableEq

/-- The free symbols of an expression. -/
def SymExpr.freeSyms : SymExpr → List String
  | .num _ => []
  | .sym s => [s]
  | .add a b => a.freeSyms ++ b.freeSyms
  | .mul a b => a.freeSyms ++ b.freeSyms

/-- Substitute the bindings of `m` for symbols. -/
def SymExpr.subst (m : List (String × Int)) : SymExpr → SymExpr
  | .num n => .num n
  | .sym s => match m.lookup s with | some v => .num v | none => .sym s
  | .add a b => .add (a.subst m) (b.subst m)
  | .mul a b => .mul (a.subst m) (b.subst m)

/-- Numeric evaluation; defined exactly when no free symbol remains. -/
def SymExpr.evalNum : SymExpr → Option Int
  | .num n => some n
  | .sym _ => none
  | .add a b =>
    match a.evalNum, b.evalNum with
    | some x, some y => some (x + y)
    | _, _ => none
  | .mul a b =>
    match a.evalNum, b.evalNum with
    | some x, some y => some (x * y)
    | _, _ => none

/-- Model of `sympy`'s `expr.evalf(subs=subs)`: substitute, then produce
a numeral when no free symbol remains; otherwise the (partially
substituted) symbolic expression is returned unchanged. -/
def evalf (e : SymExpr) (subs : List (String × Int)) : SymExpr :=
  let e2 := e.subst subs
  match e2.evalNum with
  | some n => .num n
  | none => e2

/-- The fixed allow-list of parseable topic IDs in
`MathDataset.random_problem`. -/
def parseable_list : List Nat :=
  [2, 7, 11, 15, 19, 21, 24, 27, 29, 30, 32, 33, 35, 36, 42, 45, 48, 49,
   52, 59, 60, 64, 66, 67, 68, 69, 70, 73, 76, 78, 81, 82, 83, 84, 85, 86,
   87, 92, 94, 95, 96, 97, 105, 108, 109, 111, 115, 122, 123]

/-- Remove every occurrence of a character (Python `replace(c, "")`). -/
def removeChar (c : Char) (l : List Char) : List Char :=
  l.filter (fun x => x ≠ c)

/-- Strip leading and trailing whitespace (Python `str.strip()`). -/
def trimWs (l : List Char) : List Char :=
  ((l.dropWhile Char.isWhitespace).reverse.dropWhile Char.isWhitespace).reverse

/-- The solution pre-processing of `random_problem`:
`str(solution).replace("$", "").strip()`. -/
def pyCleanSolution (sol : String) : String :=
  (trimWs (removeChar '$' sol.toList)).asString

/-- The record built by `MathDataset.random_problem(parse=True)`. -/
structure MathRecord where
  problem : String
  solution : SymExpr
  solution_raw : String
  topic : String
  subtopic : String
deriving DecidableEq

/-- `MathDataset.random_problem(parse=True)`.  The external libraries are
explicit inputs: `genById` is `mathgenerator.genById` (problem text and
raw solution string per topic ID), `parse_latex` is
`sympy.parsing.latex.parse_latex`, and `topics` gives the
`(subtopic, topic)` fields of `topics_list[choice]`.  The topic ID is
drawn from the private generator over `parseable_list`; `x` is bound to
10 in the substitutions exactly when the raw solution contains the
substring `"x"`; the cleaned solution is parsed and evaluated with those
substitutions. -/
def mathRandomProblem (genById : Nat → String × String)
    (parse_latex : String → SymExpr) (topics : Nat → String × String)
    (s : List Nat) : Option MathRecord × List Nat :=
  match pyChoice parseable_list s with
  | (none, s2) => (none, s2)
  | (some choice, s2) =>
    let pr := genById choice
    let subs : List (String × Int) :=
      if pySubstr "x" pr.2 then [("x", (10 : Int))] else []
    let solutionNumeric := evalf (parse_latex (pyCleanSolution pr.2)) subs
    let tp := topics choice
    (some { problem := pr.1, solution := solutionNumeric,
            solution_raw := pr.2, topic := tp.2, subtopic := tp.1 }, s2)

/-- `MathDataset.next(parse=True)` with explicit clock readings. -/
def mathNext (genById : Nat → String × String)
    (parse_latex : String → SymExpr) (topics : Nat → String × String)
    (s : List Nat) (t0 t1 : Int) : Option (MathRecord × Int) :=
  (mathRandomProblem genById parse_latex topics s).1.map
    (fun r => (r, t1 - t0))

/-! ### Concrete instances used in counterexamples and witnesses -/

/-- A day page with two events, each carrying one titled link. -/
def dqPageTwo : DayPage :=
  { status := 200,
    events := some
      [ { text := "A", links := [{ title := some "LA" }] },
        { text := "B", links := [{ title := some "LB" }] } ],
    births := none, deaths := none }

/-- Responses serving `dqPageTwo` for every date. -/
def dqFetchTwo : Nat → Nat → DayPage := fun _ _ => dqPageTwo

/-- The record selected when the global stream picks the first event. -/
def dqRecA : DQRecord :=
  { date := "January 01", event := "A", next_page := some "LA",
    sectionName := "Events" }

/-- The record selected when the global stream picks the second event. -/
def dqRecB : DQRecord :=
  { date := "January 01", event := "B", next_page := some "LB",
    sectionName := "Events" }

/-- A day page whose single event entry carries no links. -/
def dqPageNoLinks : DayPage :=
  { status := 200,
    events := some [{ text := "plain", links := [] }],
    births := none, deaths := none }

/-- Responses that always return HTTP 404, exhausting the retry loop. -/
def dqFetch404 : Nat → Nat → DayPage :=
  fun _ _ => { status := 404, events := none, births := none, deaths := none }

/-- A generator whose raw solution is the string `$No$`, the very shape
called out by the source's own `BUG` comment on `parse_latex`. -/
def genNo : Nat → String × String := fun _ => ("Is 7 prime?", "$No$")

/-- `parse_latex` behaviour on `"No"` per the source's `BUG` comment:
all letters are read as variables, so `No` parses as `N * o`. -/
def parseLatexNo : String → SymExpr := fun s =>
  if s = "No" then .mul (.sym "N") (.sym "o") else .num 0

/-- Topic table for the `$No$` counterexample. -/
def topicsNo : Nat → String × String := fun _ => ("answers", "basic_math")

/-- The record produced by `random_problem` in the `$No$` case. -/
def mathNoRecord : MathRecord :=
  { problem := "Is 7 prime?",
    solution := .mul (.sym "N") (.sym "o"),
    solution_raw := "$No$",
    topic := "basic_math", subtopic := "answers" }

/-- A generator with a purely numeric solution string. -/
def genFive : Nat → String × String := fun _ => ("what is 5", "$5$")

/-- A parser mapping the cleaned numeric solution to a numeral. -/
def parseLatexFive : String → SymExpr := fun s =>
  if s = "5" then .num 5 else .sym "unparsed"

/-- Topic table for the numeric witness. -/
def topicsFive : Nat → String × String := fun _ => ("addition", "arithmetic")

/-! ## Helper lemmas -/

/-- A successful `pyChoice` picks an element of the list. -/
theorem pyChoice_mem {α : Type} {xs : List α} {s s2 : List Nat} {x : α}
    (h : pyChoice xs s = (some x, s2)) : x ∈ xs := by
  simp only [pyChoice, take1] at h
  split at h
  · rw [Prod.mk.injEq] at h
    obtain ⟨h1, -⟩ := h
    obtain rfl := Option.some.inj h1
    exact List.get_mem ..
  · rw [Prod.mk.injEq] at h
    exact absurd h.1 (by simp)

/-- `pyChoice` on a non-empty list always succeeds. -/
theorem pyChoice_pos {α : Type} (xs : List α) (s : List Nat)
    (hx : 0 < xs.length) :
    ∃ x, pyChoice xs s = (some x, s.tail) ∧ x ∈ xs := by
  unfold pyChoice
  rw [dif_pos hx]
  exact ⟨_, rfl, List.get_mem ..⟩

/-- `dropWhile` removes a maximal leading run satisfying the predicate. -/
theorem dropWhile_decomp {α : Type} (p : α → Bool) (l : List α) :
    ∃ pre, l = pre ++ l.dropWhile p ∧ ∀ c ∈ pre, p c = true := by
  induction l with
  | nil => exact ⟨[], rfl, by simp⟩
  | cons a l ih =>
    cases hpa : p a with
    | true =>
      obtain ⟨pre, hpre, hall⟩ := ih
      refine ⟨a :: pre, ?_, ?_⟩
      · rw [List.dropWhile_cons, if_pos hpa, List.cons_append]
        exact congrArg (a :: ·) hpre
      · intro c hc
        rcases List.mem_cons.1 hc with rfl | hc
        · exact hpa
        · exact hall c hc
    | false =>
      refine ⟨[], ?_, by simp⟩
      rw [List.dropWhile_cons, if_neg (by simp [hpa])]
      rfl

/-- The head of `dropWhile p l`, when present, fails `p`. -/
theorem head?_dropWhile {α : Type} (p : α → Bool) (l : List α) :
    ∀ c, (l.dropWhile p).head? = some c → p c = false := by
  induction l with
  | nil => intro c h; simp [List.dropWhile] at h
  | cons a l ih =>
    intro c h
    rw [List.dropWhile_cons] at h
    cases hpa : p a with
    | true => rw [if_pos hpa] at h; exact ih c h
    | false =>
      rw [if_neg (by simp [hpa])] at h
      obtain rfl := Option.some.inj h
      exact hpa

/-- A non-empty `dropWhile p l` keeps the last element of `l`. -/
theorem getLast?_dropWhile {α : Type} (p : α → Bool) :
    ∀ l : List α, l.dropWhile p ≠ [] →
      (l.dropWhile p).getLast? = l.getLast?
  | [] => by simp [List.dropWhile]
  | a :: l => by
    intro h
    rw [List.dropWhile_cons] at h ⊢
    cases hpa : p a with
    | false => rw [if_neg (by simp)]
    | true =>
      rw [if_pos hpa] at h
      rw [if_pos rfl]
      have hl : l ≠ [] := by
        intro e
        subst e
        simp [List.dropWhile] at h
      cases l with
      | nil => exact absurd rfl hl
      | cons b l2 =>
        rw [List.getLast?_cons_cons]
        exact getLast?_dropWhile p (b :: l2) h

/-- Python `strip(chars)` decomposition: the input splits as dropped
leading characters, the result, and dropped trailing characters; the
dropped parts lie in the character set, whilst the result's ends do
not. -/
theorem stripL_decomp (chars l : List Char) :
    ∃ pre suf, l = pre ++ stripL chars l ++ suf ∧
      (∀ c ∈ pre, c ∈ chars) ∧ (∀ c ∈ suf, c ∈ chars) ∧
      (∀ c, (stripL chars l).head? = some c → c ∉ chars) ∧
      (∀ c, (stripL chars l).getLast? = some c → c ∉ chars) := by
  set f : Char → Bool := fun c => decide (c ∈ chars) with hf
  set M : List Char := l.dropWhile f with hM
  set X : List Char := M.reverse.dropWhile f with hX
  have hstrip : stripL chars l = X.reverse := rfl
  obtain ⟨pre1, hl1, hpre1⟩ := dropWhile_decomp f l
  obtain ⟨pre2, hl2, hpre2⟩ := dropWhile_decomp f M.reverse
  have hMX : M = X.reverse ++ pre2.reverse := by
    have := congrArg List.reverse hl2
    rw [List.reverse_reverse, List.reverse_append] at this
    exact this
  refine ⟨pre1, pre2.reverse, ?_, ?_, ?_, ?_, ?_⟩
  · rw [hstrip]
    calc l = pre1 ++ M := hl1
    _ = pre1 ++ (X.reverse ++ pre2.reverse) := by rw [← hMX]
    _ = pre1 ++ X.reverse ++ pre2.reverse := by rw [List.append_assoc]
  · intro c hc
    have := hpre1 c hc
    rw [hf] at this
    exact of_decide_eq_true this
  · intro c hc
    have := hpre2 c (List.mem_reverse.1 hc)
    rw [hf] at this
    exact of_decide_eq_true this
  · intro c hc
    rw [hstrip] at hc
    rw [List.head?_reverse] at hc
    have hXne : X ≠ [] := by
      intro e
      rw [e] at hc
      simp at hc
    rw [hX, getLast?_dropWhile f M.reverse (hX ▸ hXne),
      List.getLast?_reverse] at hc
    have := head?_dropWhile f l c (hM ▸ hc)
    intro hmem
    rw [hf] at this
    exact absurd (decide_eq_true hmem) (by simp [this])
  · intro c hc
    rw [hstrip, List.getLast?_reverse] at hc
    have := head?_dropWhile f M.reverse c (hX ▸ hc)
    intro hmem
    rw [hf] at this
    exact absurd (decide_eq_true hmem) (by simp [this])

/-- Substituting an empty binding list changes nothing. -/
theorem subst_nil (e : SymExpr) : e.subst [] = e := by
  induction e with
  | num n => rfl
  | sym s => rfl
  | add a b iha ihb => simp [SymExpr.subst, iha, ihb]
  | mul a b iha ihb => simp [SymExpr.subst, iha, ihb]

/-- An expression without free symbols evaluates to a numeral. -/
theorem evalNum_total (e : SymExpr) (h : e.freeSyms = []) :
    ∃ n, e.evalNum = some n := by
  induction e with
  | num n => exact ⟨n, rfl⟩
  | sym s => simp [SymExpr.freeSyms] at h
  | add a b iha ihb =>
    rw [SymExpr.freeSyms, List.append_eq_nil] at h
    obtain ⟨n, hn⟩ := iha h.1
    obtain ⟨m, hm⟩ := ihb h.2
    exact ⟨n + m, by simp [SymExpr.evalNum, hn, hm]⟩
  | mul a b iha ihb =>
    rw [SymExpr.freeSyms, List.append_eq_nil] at h
    obtain ⟨n, hn⟩ := iha h.1
    obtain ⟨m, hm⟩ := ihb h.2
    exact ⟨n * m, by simp [SymExpr.evalNum, hn, hm]⟩

/-- Binding `x` closes any expression whose only free symbol is `x`. -/
theorem subst_x_closes (v : Int) (e : SymExpr)
    (h : ∀ s ∈ e.freeSyms, s = "x") :
    (e.subst [("x", v)]).freeSyms = [] := by
  induction e with
  | num n => rfl
  | sym s =>
    have hs : s = "x" := h s (by simp [SymExpr.freeSyms])
    subst hs
    simp [SymExpr.subst, List.lookup, SymExpr.freeSyms]
  | add a b iha ihb =>
    rw [SymExpr.subst, SymExpr.freeSyms, List.append_eq_nil]
    refine ⟨iha ?_, ihb ?_⟩ <;> intro s hs <;> apply h s
    · rw [SymExpr.freeSyms]; exact List.mem_append_left _ hs
    · rw [SymExpr.freeSyms]; exact List.mem_append_right _ hs
  | mul a b iha ihb =>
    rw [SymExpr.subst, SymExpr.freeSyms, List.append_eq_nil]
    refine ⟨iha ?_, ihb ?_⟩ <;> intro s hs <;> apply h s
    · rw [SymExpr.freeSyms]; exact List.mem_append_left _ hs
    · rw [SymExpr.freeSyms]; exact List.mem_append_right _ hs

/-- `evalf` yields a symbol-free value whenever substitution closed the
expression. -/
theorem evalf_closes (e : SymExpr) (subs : List (String × Int))
    (h : (e.subst subs).freeSyms = []) : (evalf e subs).freeSyms = [] := by
  obtain ⟨n, hn⟩ := evalNum_total _ h
  simp only [evalf, hn]
  rfl

/-- The first stream sample passing the line filter is returned; all
earlier samples fail the filter. -/
theorem codingNextAux_finds (minLines maxLines : Nat) :
    ∀ stream r, codingNextAux minLines maxLines stream = some r →
      codeLineOk minLines maxLines r = true ∧
      ∃ pre suf, stream = pre ++ r :: suf ∧
        ∀ c ∈ pre, codeLineOk minLines maxLines c = false := by
  intro stream
  induction stream with
  | nil => intro r h; cases h
  | cons c rest ih =>
    intro r h
    rw [codingNextAux] at h
    cases hok : codeLineOk minLines maxLines c with
    | true =>
      rw [if_pos hok] at h
      obtain rfl := Option.some.inj h
      exact ⟨hok, [], rest, rfl, by simp⟩
    | false =>
      rw [if_neg (by simp [hok])] at h
      obtain ⟨hr, pre, suf, hdec, hall⟩ := ih r h
      refine ⟨hr, c :: pre, suf, by rw [hdec, List.cons_append], ?_⟩
      intro d hd
      rcases List.mem_cons.1 hd with rfl | hd
      · exact hok
      · exact hall d hd

/-- Once the event selection is reached, the iteration finishes with a
`done` step, and any returned record carries the current date and
section. -/
theorem dqSelect_done (month day : Nat) (sectName : String)
    (entries : List DQEntry) (p3 glob : List Nat) :
    ∃ res p g, dqSelect month day sectName entries p3 glob = .done res p g ∧
      ∀ r, res = .ok r →
        r.date = monthName month ++ " " ++ pad2 day ∧
        r.sectionName = sectName := by
  unfold dqSelect
  rcases hc : pyChoice entries glob with ⟨o, g1⟩
  cases o with
  | none => exact ⟨.error .indexError, p3, g1, rfl, fun r hr => by cases hr⟩
  | some entry =>
    dsimp only
    cases hle : entry.links.isEmpty with
    | true =>
      rw [if_pos rfl]
      exact ⟨.error .unboundLocal, p3, g1, rfl, fun r hr => by cases hr⟩
    | false =>
      rw [if_neg (by simp)]
      rcases hcl : pyChoice entry.links p3 with ⟨ol, p4⟩
      cases ol with
      | none => exact ⟨.error .indexError, p4, g1, rfl, fun r hr => by cases hr⟩
      | some link =>
        refine ⟨_, p4, g1, rfl, ?_⟩
        intro r hr
        obtain rfl := Except.ok.inj hr
        exact ⟨rfl, rfl⟩

/-- A retrying shadow step forces the full iteration to retry with the
same private stream, leaving the global stream untouched. -/
theorem dqIter_retry_of_shadow (fetch : Nat → Nat → DayPage)
    (priv glob p : List Nat) (h : dqIterShadow fetch priv = .retry p) :
    dqIter fetch priv glob = .retry p glob := by
  simp only [dqIterShadow] at h
  simp only [dqIter]
  split at h
  next hst =>
    cases h
    rw [if_pos hst]
  next hst =>
    rw [if_neg hst]
    split at h
    next p3 heq => cases h
    next sect p3 heq =>
      split at h
      next hse =>
        cases h
        rw [if_pos hse]
      next hse => cases h

/-- A failing shadow step forces the full iteration to end in an
`IndexError`. -/
theorem dqIter_fail_of_shadow (fetch : Nat → Nat → DayPage)
    (priv glob p : List Nat) (h : dqIterShadow fetch priv = .fail p) :
    dqIter fetch priv glob = .done (.error .indexError) p glob := by
  simp only [dqIterShadow] at h
  simp only [dqIter]
  split at h
  next hst => cases h
  next hst =>
    rw [if_neg hst]
    split at h
    next p3 heq =>
      cases h
      rfl
    next sect p3 heq =>
      split at h
      next hse => cases h
      next hse => cases h

/-- A selecting shadow step forces the full iteration to finish, and any
record it returns carries the shadow's date and section. -/
theorem dqIter_select_of_shadow (fetch : Nat → Nat → DayPage)
    (priv glob : List Nat) (d s : String) (p : List Nat)
    (h : dqIterShadow fetch priv = .select d s p) :
    ∃ res pp gg, dqIter fetch priv glob = .done res pp gg ∧
      ∀ r, res = .ok r → r.date = d ∧ r.sectionName = s := by
  simp only [dqIterShadow] at h
  simp only [dqIter]
  split at h
  next hst => cases h
  next hst =>
    rw [if_neg hst]
    split at h
    next p3 heq => cases h
    next sect p3 heq =>
      split at h
      next hse => cases h
      next hse =>
        cases h
        rw [if_neg hse]
        exact dqSelect_done _ _ _ _ _ _

/-- Any record returned by one iteration stems from a present section of
the fetched page, an entry of that section, and one of the entry's links
(which must exist). -/
theorem dqIter_ok_links (fetch : Nat → Nat → DayPage) (priv glob : List Nat)
    (r : DQRecord) (p g : List Nat)
    (h : dqIter fetch priv glob = .done (.ok r) p g) :
    ∃ month day entries entry link,
      (r.sectionName, entries) ∈ (fetch month day).available ∧
      entry ∈ entries ∧ entry.links ≠ [] ∧ link ∈ entry.links ∧
      r.event = entry.text ∧ r.next_page = link.title := by
  simp only [dqIter] at h
  split at h
  next hst => cases h
  next hst =>
    split at h
    next p3 heq => simp at h
    next sect p3 heq =>
      split at h
      next hse => cases h
      next hse =>
        simp only [dqSelect] at h
        split at h
        next g1 heqe => simp at h
        next entry g1 heqe =>
          split at h
          next hle => simp at h
          next hle =>
            split at h
            next p4 heql => simp at h
            next link p4 heql =>
              injection h with h1 h2 h3
              obtain rfl := Except.ok.inj h1
              refine ⟨(dqProbe fetch priv).1, (dqProbe fetch priv).2.1,
                sect.2, entry, link, ?_, ?_, ?_, ?_, rfl, rfl⟩
              · have hsm := pyChoice_mem heq
                rw [show (dqProbe fetch priv).2.2.1 =
                  fetch (dqProbe fetch priv).1 (dqProbe fetch priv).2.1
                  from rfl] at hsm
                exact Prod.mk.eta ▸ hsm
              · exact pyChoice_mem heqe
              · intro e
                apply hle
                rw [e]
                rfl
              · exact pyChoice_mem heql

/-- A successful run of the retry loop determines its date and section
through the private-only shadow loop. -/
theorem dqLoop_shadow (fetch : Nat → Nat → DayPage) (fuel : Nat) :
    ∀ priv glob r, (dqLoop fetch fuel priv glob).1 = .ok (some r) →
      dqShadowLoop fetch fuel priv = some (r.date, r.sectionName) := by
  induction fuel with
  | zero => intro priv glob r h; simp [dqLoop] at h
  | succ fuel ih =>
    intro priv glob r h
    rw [dqShadowLoop]
    simp only [dqLoop] at h
    cases hsh : dqIterShadow fetch priv with
    | retry p =>
      rw [dqIter_retry_of_shadow fetch priv glob p hsh] at h
      exact ih p glob r h
    | fail p =>
      rw [dqIter_fail_of_shadow fetch priv glob p hsh] at h
      simp at h
    | select d s p =>
      obtain ⟨res, pp, gg, heq, hok⟩ :=
        dqIter_select_of_shadow fetch priv glob d s p hsh
      rw [heq] at h
      cases res with
      | error e => simp at h
      | ok r0 =>
        simp only at h
        obtain rfl := Option.some.inj (Except.ok.inj h)
        obtain ⟨hd, hs⟩ := hok r0 rfl
        rw [hd, hs]

/-! ## Claim theorems -/

/-- C1: the claim states that `WikiDataset.next()` raises only after all
`max_tries` fetch attempts failed to reach `min_length_words`, and in
particular returns the record when the `max_tries`-th attempt succeeds.
The code contradicts this (and its own docstring): with `max_tries = 1`,
`min_length_words = 1` and a first fetched text of two words, the word
count check succeeds and the loop breaks, yet the post-loop test
`tries == max_tries` still raises the exhaustion exception.  The same
fetch under `max_tries = 2` returns the record, showing the attempt
itself met the threshold. -/
theorem wiki_next_raises_on_last_try_success :
    wikiNext (fun _ => "one two") 1 1 0 5 = .error (wikiRaiseMsg 1 1) ∧
    wikiNext (fun _ => "one two") 1 2 0 5 = .ok ("one two", 5) ∧
    pyWordCount "one two" = 2 :=
  ⟨rfl, rfl, rfl⟩

/-- C2 counterexample: the record returned by `MockDataset.next()` is
exactly `{"text": "What is the capital of Texas?"}` and carries no
`fetch_time` key, so not every adapter's record contains `fetch_time`. -/
theorem mock_next_lacks_fetch_time :
    mockNext.lookup "fetch_time" = none ∧
    mockNext = [("text", "What is the capital of Texas?")] :=
  ⟨rfl, rfl⟩

/-- C2 (amended): every adapter except `MockDataset` attaches
`fetch_time = time.time() - t0` to a successfully returned record, and
this value is non-negative whenever the clock is monotone
(`t0 ≤ t1`). -/
theorem adapters_attach_elapsed_fetch_time (t0 t1 : Int) (h : t0 ≤ t1) :
    (∀ stream minL maxL r ft,
      codingNext stream minL maxL t0 t1 = some (r, ft) →
        ft = t1 - t0 ∧ 0 ≤ ft) ∧
    (∀ fetch mW mT text ft,
      wikiNext fetch mW mT t0 t1 = .ok (text, ft) →
        ft = t1 - t0 ∧ 0 ≤ ft) ∧
    (∀ getText q answers rec ft,
      stackNext getText q answers t0 t1 = .ok (rec, ft) →
        ft = t1 - t0 ∧ 0 ≤ ft) ∧
    (∀ fetch mT priv glob rec ft,
      dqNext fetch mT priv glob t0 t1 = .ok (rec, ft) →
        ft = t1 - t0 ∧ 0 ≤ ft) ∧
    (∀ gen pl tp s rec ft,
      mathNext gen pl tp s t0 t1 = some (rec, ft) →
        ft = t1 - t0 ∧ 0 ≤ ft) := by
  have hft : (0 : Int) ≤ t1 - t0 := by omega
  refine ⟨?_, ?_, ?_, ?_, ?_⟩
  · intro stream minL maxL r ft hx
    unfold codingNext at hx
    cases haux : codingNextAux minL maxL stream with
    | none => rw [haux] at hx; cases hx
    | some r0 =>
      rw [haux] at hx
      obtain h2 := Option.some.inj hx
      rw [Prod.mk.injEq] at h2
      obtain ⟨-, rfl⟩ := h2
      exact ⟨rfl, hft⟩
  · intro fetch mW mT text ft hx
    unfold wikiNext at hx
    cases haux : wikiNextAux fetch mW mT mT 0 with
    | error e => rw [haux] at hx; cases hx
    | ok txt =>
      rw [haux] at hx
      obtain h2 := Except.ok.inj hx
      rw [Prod.mk.injEq] at h2
      obtain ⟨-, rfl⟩ := h2
      exact ⟨rfl, hft⟩
  · intro getText q answers rec ft hx
    unfold stackNext at hx
    split at hx
    next w e heq => cases hx
    next w ans heq =>
      obtain h2 := Except.ok.inj hx
      rw [Prod.mk.injEq] at h2
      obtain ⟨-, rfl⟩ := h2
      exact ⟨rfl, hft⟩
  · intro fetch mT priv glob rec ft hx
    unfold dqNext at hx
    split at hx
    next e heq => cases hx
    next heq => cases hx
    next r0 heq =>
      obtain h2 := Except.ok.inj hx
      rw [Prod.mk.injEq] at h2
      obtain ⟨-, rfl⟩ := h2
      exact ⟨rfl, hft⟩
  · intro gen pl tp s rec ft hx
    unfold mathNext at hx
    cases haux : (mathRandomProblem gen pl tp s).1 with
    | none => rw [haux] at hx; cases hx
    | some r0 =>
      rw [haux] at hx
      obtain h2 := Option.some.inj hx
      rw [Prod.mk.injEq] at h2
      obtain ⟨-, rfl⟩ := h2
      exact ⟨rfl, hft⟩

/-- C2 witness: the amended fetch-time property instantiated at clock
readings 0 and 3. -/
theorem adapters_attach_elapsed_fetch_time_witness :
    ((0 : Int) ≤ 3) ∧
    ((∀ stream minL maxL r ft,
      codingNext stream minL maxL 0 3 = some (r, ft) →
        ft = 3 - 0 ∧ 0 ≤ ft) ∧
    (∀ fetch mW mT text ft,
      wikiNext fetch mW mT 0 3 = .ok (text, ft) →
        ft = 3 - 0 ∧ 0 ≤ ft) ∧
    (∀ getText q answers rec ft,
      stackNext getText q answers 0 3 = .ok (rec, ft) →
        ft = 3 - 0 ∧ 0 ≤ ft) ∧
    (∀ fetch mT priv glob rec ft,
      dqNext fetch mT priv glob 0 3 = .ok (rec, ft) →
        ft = 3 - 0 ∧ 0 ≤ ft) ∧
    (∀ gen pl tp s rec ft,
      mathNext gen pl tp s 0 3 = some (rec, ft) →
        ft = 3 - 0 ∧ 0 ≤ ft)) :=
  ⟨by decide, adapters_attach_elapsed_fetch_time 0 3 (by decide)⟩

/-- C3: for a valid chunk count `k` and the randomly drawn start index,
`chunk(text, sep, n_chunks=k)` returns exactly `k` non-blank segments of
`text.split(sep)`, taken as a contiguous run in original order and
re-joined by `sep`; on the spec's example, `chunk("a\n\nb\nc", "\n", 2)`
yields `"a\nb"` for start 0 and `"b\nc"` for start 1. -/
theorem chunk_returns_contiguous_run (text sep : String) (k start : Nat)
    (hsep : sep ≠ "") (hk : 1 ≤ k)
    (hkN : k ≤ (pySegments text sep).length)
    (hstart : start ≤ (pySegments text sep).length - k) :
    ∃ run : List String,
      run.length = k ∧
      (∃ pre suf, pySegments text sep = pre ++ run ++ suf) ∧
      pyChunk text sep k start = joinSep sep run ∧
      pyChunk "a\n\nb\nc" "\n" 2 0 = "a\nb" ∧
      pyChunk "a\n\nb\nc" "\n" 2 1 = "b\nc" := by
  refine ⟨((pySegments text sep).drop start).take k, ?_, ?_, rfl,
    by decide, by decide⟩
  · rw [List.length_take, List.length_drop]
    omega
  · refine ⟨(pySegments text sep).take start,
      ((pySegments text sep).drop start).drop k, ?_⟩
    rw [List.append_assoc, List.take_append_drop, List.take_append_drop]

/-- C3 witness: the chunk property instantiated on the spec's example
with `k = 2` and start index 1. -/
theorem chunk_returns_contiguous_run_witness :
    (("\n" : String) ≠ "" ∧ 1 ≤ 2 ∧
      2 ≤ (pySegments "a\n\nb\nc" "\n").length ∧
      1 ≤ (pySegments "a\n\nb\nc" "\n").length - 2) ∧
    ∃ run : List String,
      run.length = 2 ∧
      (∃ pre suf, pySegments "a\n\nb\nc" "\n" = pre ++ run ++ suf) ∧
      pyChunk "a\n\nb\nc" "\n" 2 1 = joinSep "\n" run ∧
      pyChunk "a\n\nb\nc" "\n" 2 0 = "a\nb" ∧
      pyChunk "a\n\nb\nc" "\n" 2 1 = "b\nc" :=
  ⟨⟨by decide, by decide, by decide, by decide⟩,
    chunk_returns_contiguous_run "a\n\nb\nc" "\n" 2 1
      (by decide) (by decide) (by decide) (by decide)⟩

/-- C4 counterexample: two `DateQADataset` runs with the same seed (the
same private stream `[0,0,0,0]`) and identical page responses select
different events and different `next_page` links when the module-global
random source (consumed by `random.choice(events)` at line 389) differs,
so the adapter's randomness is not drawn only from its private seeded
generator. -/
theorem dq_event_selection_uses_global_random :
    (dqGetRandomEvent dqFetchTwo 10 [0, 0, 0, 0] [0]).1 = .ok (some dqRecA) ∧
    (dqGetRandomEvent dqFetchTwo 10 [0, 0, 0, 0] [1]).1 = .ok (some dqRecB) ∧
    dqRecA.event ≠ dqRecB.event ∧ dqRecA.next_page ≠ dqRecB.next_page :=
  ⟨rfl, rfl, by decide, by decide⟩

/-- C4 (amended): the generated date and the chosen section of
`get_random_event` depend only on the private seeded generator: two runs
with the same private stream and the same responses agree on `date` and
`section` whenever both return records.  The selected event entry (and
hence the link whose title becomes `next_page`) is drawn from the
module-global random source and may differ. -/
theorem dq_date_section_private (fetch : Nat → Nat → DayPage)
    (maxTries : Nat) (priv g1 g2 : List Nat) (r1 r2 : DQRecord)
    (h1 : (dqGetRandomEvent fetch maxTries priv g1).1 = .ok (some r1))
    (h2 : (dqGetRandomEvent fetch maxTries priv g2).1 = .ok (some r2)) :
    r1.date = r2.date ∧ r1.sectionName = r2.sectionName := by
  have e1 := dqLoop_shadow fetch maxTries priv g1 r1 h1
  have e2 := dqLoop_shadow fetch maxTries priv g2 r2 h2
  rw [e1] at e2
  obtain h3 := Option.some.inj e2
  rw [Prod.mk.injEq] at h3
  exact h3

/-- C4 witness: the amended determinism property instantiated on the
two-event page with global streams `[0]` and `[1]`. -/
theorem dq_date_section_private_witness :
    ((dqGetRandomEvent dqFetchTwo 10 [0, 0, 0, 0] [0]).1 = .ok (some dqRecA) ∧
     (dqGetRandomEvent dqFetchTwo 10 [0, 0, 0, 0] [1]).1 = .ok (some dqRecB)) ∧
    (dqRecA.date = dqRecB.date ∧ dqRecA.sectionName = dqRecB.sectionName) :=
  ⟨⟨rfl, rfl⟩,
    dq_date_section_private dqFetchTwo 10 [0, 0, 0, 0] [0] [1]
      dqRecA dqRecB rfl rfl⟩

/-- C5 counterexample: when the selected list entry contains no links,
`get_random_event` does not return a record with `next_page = None`; the
`link` local variable is never bound, so `link.get("title")` raises an
unbound-local error. -/
theorem dq_no_links_raises_unbound_local :
    (dqGetRandomEvent (fun _ _ => dqPageNoLinks) 10 [0, 0, 0, 0] [0]).1 =
      .error .unboundLocal :=
  rfl

/-- C5 (amended): whenever `get_random_event()` returns a record, the
selected entry had at least one link and `next_page` equals the `title`
attribute of one of that entry's links (which is itself `None` when the
link has no `title` attribute); a selected entry without links leads to
an unbound-local error instead of a record. -/
theorem dq_record_next_page_from_links (fetch : Nat → Nat → DayPage)
    (maxTries : Nat) :
    ∀ priv glob r,
      (dqGetRandomEvent fetch maxTries priv glob).1 = .ok (some r) →
      ∃ month day entries entry link,
        (r.sectionName, entries) ∈ (fetch month day).available ∧
        entry ∈ entries ∧ entry.links ≠ [] ∧ link ∈ entry.links ∧
        r.event = entry.text ∧ r.next_page = link.title := by
  induction maxTries with
  | zero => intro priv glob r h; simp [dqGetRandomEvent, dqLoop] at h
  | succ fuel ih =>
    intro priv glob r h
    simp only [dqGetRandomEvent, dqLoop] at h
    cases hit : dqIter fetch priv glob with
    | retry p g =>
      rw [hit] at h
      exact ih p g r h
    | done res p g =>
      rw [hit] at h
      cases res with
      | error e => simp at h
      | ok r0 =>
        obtain rfl := Option.some.inj (Except.ok.inj h)
        exact dqIter_ok_links fetch priv glob r0 p g hit

/-- C5 witness: the amended `next_page` property instantiated on the
two-event page run that returns `dqRecA`. -/
theorem dq_record_next_page_from_links_witness :
    ((dqGetRandomEvent dqFetchTwo 10 [0, 0, 0, 0] [0]).1 =
      .ok (some dqRecA)) ∧
    ∃ month day entries entry link,
      (dqRecA.sectionName, entries) ∈ (dqFetchTwo month day).available ∧
      entry ∈ entries ∧ entry.links ≠ [] ∧ link ∈ entry.links ∧
      dqRecA.event = entry.text ∧ dqRecA.next_page = link.title :=
  ⟨rfl, dq_record_next_page_from_links dqFetchTwo 10 [0, 0, 0, 0] [0]
    dqRecA rfl⟩

/-- C6 counterexample: `"Category:Greece".strip("Category:")` yields
`"Greec"`, not `"Greece"`: `str.strip` removes characters of the set
`{C,a,t,e,g,o,r,y,:}` from both ends, so the trailing `e` of `Greece` is
also removed — the transformation is not removal of the literal prefix
alone. -/
theorem wiki_category_strip_not_literal :
    wikiCategories ["Category:Greece"] = ["Greec"] ∧
    wikiCategories ["Category:Greece"] ≠ ["Greece"] := by
  constructor
  · decide
  · decide

/-- C6 (amended): each string in the `categories` field is the original
category title with all leading and all trailing characters drawn from
the set `{C,a,t,e,g,o,r,y,:}` removed (Python `str.strip("Category:")`
semantics), maximally: the remaining string neither starts nor ends with
a character of that set. -/
theorem wiki_categories_strip_char_set (titles : List String) (cat : String)
    (h : cat ∈ wikiCategories titles) :
    ∃ t ∈ titles, cat = pyStripChars wikiStripSet t ∧
      ∃ pre suf : List Char,
        t.toList = pre ++ cat.toList ++ suf ∧
        (∀ c ∈ pre, c ∈ wikiStripSet) ∧ (∀ c ∈ suf, c ∈ wikiStripSet) ∧
        (∀ c, cat.toList.head? = some c → c ∉ wikiStripSet) ∧
        (∀ c, cat.toList.getLast? = some c → c ∉ wikiStripSet) := by
  unfold wikiCategories at h
  rw [List.mem_filter] at h
  obtain ⟨hmap, -⟩ := h
  rw [List.mem_map] at hmap
  obtain ⟨t, ht, rfl⟩ := hmap
  exact ⟨t, ht, rfl, stripL_decomp wikiStripSet t.toList⟩

/-- C6 witness: the strip characterisation instantiated at the title
`"Category:Greece"` and its stripped form `"Greec"`. -/
theorem wiki_categories_strip_char_set_witness :
    ("Greec" ∈ wikiCategories ["Category:Greece"]) ∧
    ∃ t ∈ ["Category:Greece"], ("Greec" : String) = pyStripChars wikiStripSet t ∧
      ∃ pre suf : List Char,
        t.toList = pre ++ ("Greec" : String).toList ++ suf ∧
        (∀ c ∈ pre, c ∈ wikiStripSet) ∧ (∀ c ∈ suf, c ∈ wikiStripSet) ∧
        (∀ c, ("Greec" : String).toList.head? = some c → c ∉ wikiStripSet) ∧
        (∀ c, ("Greec" : String).toList.getLast? = some c → c ∉ wikiStripSet) :=
  ⟨by decide, wiki_categories_strip_char_set ["Category:Greece"] "Greec"
    (by decide)⟩

/-- C7: any record returned by `CodingDataset.next(min_lines, max_lines)`
has a `code` line count inside `[min_lines, max_lines]`, and every sample
pulled from the stream before it was discarded for failing the filter. -/
theorem coding_next_line_bounds (stream : List CodeRecord) (minL maxL : Nat)
    (t0 t1 : Int) (r : CodeRecord) (ft : Int) (hml : minL ≤ maxL)
    (h : codingNext stream minL maxL t0 t1 = some (r, ft)) :
    minL ≤ (pySplitlines r.code).length ∧
      (pySplitlines r.code).length ≤ maxL ∧
      ∃ pre suf, stream = pre ++ r :: suf ∧
        ∀ c ∈ pre, codeLineOk minL maxL c = false := by
  unfold codingNext at h
  cases haux : codingNextAux minL maxL stream with
  | none => rw [haux] at h; cases h
  | some r0 =>
    rw [haux] at h
    obtain h2 := Option.some.inj h
    rw [Prod.mk.injEq] at h2
    obtain ⟨rfl, -⟩ := h2
    obtain ⟨hok, hdec⟩ := codingNextAux_finds minL maxL stream r0 haux
    simp only [codeLineOk, Bool.and_eq_true, decide_eq_true_eq] at hok
    exact ⟨hok.1, hok.2, hdec⟩

/-- C7 witness: the line-bound property instantiated on a one-element
stream whose sample has two lines, with bounds `[1, 5]`. -/
theorem coding_next_line_bounds_witness :
    (1 ≤ 5 ∧
      codingNext [{ code := "l1\nl2" }] 1 5 0 2 =
        some ({ code := "l1\nl2" }, 2)) ∧
    (1 ≤ (pySplitlines ({ code := "l1\nl2" } : CodeRecord).code).length ∧
      (pySplitlines ({ code := "l1\nl2" } : CodeRecord).code).length ≤ 5 ∧
      ∃ pre suf, [{ code := "l1\nl2" }] =
          pre ++ ({ code := "l1\nl2" } : CodeRecord) :: suf ∧
        ∀ c ∈ pre, codeLineOk 1 5 c = false) :=
  ⟨⟨by decide, rfl⟩,
    coding_next_line_bounds [{ code := "l1\nl2" }] 1 5 0 2
      { code := "l1\nl2" } 2 (by decide) rfl⟩

/-- C8 counterexample: with the raw solution `$No$` — the very shape the
source's own `BUG` comment names — `random_problem(parse=True)` returns a
`solution` that still contains the free symbols `N` and `o`
(`parse_latex` reads `No` as `N * o` and `evalf` cannot evaluate it), so
the solution field is not always a numeric value free of symbols. -/
theorem math_solution_keeps_free_symbols :
    (mathRandomProblem genNo parseLatexNo topicsNo [0]).1 =
      some mathNoRecord ∧
    mathNoRecord.solution.freeSyms = ["N", "o"] ∧
    mathNoRecord.solution.freeSyms ≠ [] :=
  ⟨rfl, rfl, by decide⟩

/-- C8 (amended): `random_problem(parse=True)` always draws its topic ID
from the fixed allow-list; the returned `solution` is the parsed raw
solution evaluated after substituting 10 for `x` (triggered by the raw
string containing `"x"`), and it is numeric — free of symbols — exactly
when the parse's free variables are limited to `x` as the allow-list
intends. -/
theorem math_random_problem_parse_amended (genById : Nat → String × String)
    (parse_latex : String → SymExpr) (topics : Nat → String × String)
    (s : List Nat)
    (hfree : ∀ c ∈ parseable_list,
      ∀ v ∈ (parse_latex (pyCleanSolution (genById c).2)).freeSyms,
        v = "x" ∧ pySubstr "x" (genById c).2 = true) :
    ∃ c r, pyChoice parseable_list s = (some c, s.tail) ∧
      c ∈ parseable_list ∧
      (mathRandomProblem genById parse_latex topics s).1 = some r ∧
      r.solution.freeSyms = [] ∧ r.solution_raw = (genById c).2 ∧
      r.topic = (topics c).2 ∧ r.subtopic = (topics c).1 := by
  obtain ⟨c, hc, hmem⟩ := pyChoice_pos parseable_list s (by decide)
  have hrec : (mathRandomProblem genById parse_latex topics s).1 = some
      { problem := (genById c).1,
        solution := evalf (parse_latex (pyCleanSolution (genById c).2))
          (if pySubstr "x" (genById c).2 then [("x", (10 : Int))] else []),
        solution_raw := (genById c).2,
        topic := (topics c).2, subtopic := (topics c).1 } := by
    unfold mathRandomProblem
    rw [hc]
  refine ⟨c, _, hc, hmem, hrec, ?_, rfl, rfl, rfl⟩
  dsimp only
  cases hx : pySubstr "x" (genById c).2 with
  | true =>
    rw [if_pos rfl]
    apply evalf_closes
    apply subst_x_closes
    intro v hv
    exact (hfree c hmem v hv).1
  | false =>
    rw [if_neg (by simp)]
    apply evalf_closes
    rw [subst_nil]
    by_contra hne
    obtain ⟨v, hv⟩ := List.exists_mem_of_ne_nil _ hne
    have hxt := (hfree c hmem v hv).2
    rw [hx] at hxt
    cases hxt

/-- C8 witness: the amended property instantiated with a generator whose
raw solution is the numeric string `$5$`. -/
theorem math_random_problem_parse_amended_witness :
    (∀ c ∈ parseable_list,
      ∀ v ∈ (parseLatexFive (pyCleanSolution (genFive c).2)).freeSyms,
        v = "x" ∧ pySubstr "x" (genFive c).2 = true) ∧
    ∃ c r, pyChoice parseable_list [0] = (some c, ([0] : List Nat).tail) ∧
      c ∈ parseable_list ∧
      (mathRandomProblem genFive parseLatexFive topicsFive [0]).1 = some r ∧
      r.solution.freeSyms = [] ∧ r.solution_raw = (genFive c).2 ∧
      r.topic = (topicsFive c).2 ∧ r.subtopic = (topicsFive c).1 :=
  ⟨by decide,
    math_random_problem_parse_amended genFive parseLatexFive topicsFive [0]
      (by decide)⟩

/-- C9: when the answers API returns an empty list, `get_stack_answer`
logs the warning and still indexes `answers[0]`, so the call ends in an
`IndexError` and never returns normally. -/
theorem stack_empty_answers_warn_and_raise (getText : String → String) :
    getStackAnswer getText [] = ([stackWarning], .error .indexError) :=
  rfl

/-- C10: `DateQADataset.next()` never returns `None` and never returns an
incomplete record: when `get_random_event()` exhausts its retries and
implicitly returns `None`, the `info["fetch_time"]` assignment raises a
`TypeError`; and every value `next()` actually returns is a record
produced by `get_random_event` together with its attached
`fetch_time`. -/
theorem dq_next_never_silent_none (fetch : Nat → Nat → DayPage)
    (maxTries : Nat) (priv glob : List Nat) (t0 t1 : Int) :
    ((dqGetRandomEvent fetch maxTries priv glob).1 = .ok none →
      dqNext fetch maxTries priv glob t0 t1 = .error .typeError) ∧
    (∀ r ft, dqNext fetch maxTries priv glob t0 t1 = .ok (r, ft) →
      (dqGetRandomEvent fetch maxTries priv glob).1 = .ok (some r) ∧
      ft = t1 - t0) := by
  constructor
  · intro h
    unfold dqNext
    rw [h]
  · intro r ft h
    unfold dqNext at h
    split at h
    next e heq => cases h
    next heq => cases h
    next r0 heq =>
      obtain h2 := Except.ok.inj h
      rw [Prod.mk.injEq] at h2
      obtain ⟨rfl, rfl⟩ := h2
      exact ⟨heq, rfl⟩

/-- C10 witness: with responses that always return HTTP 404 and
`max_tries = 2`, `get_random_event` falls through to `None`, and `next()`
raises the `TypeError` instead of returning. -/
theorem dq_next_never_silent_none_witness :
    ((dqGetRandomEvent dqFetch404 2 [] []).1 = .ok none) ∧
    dqNext dqFetch404 2 [] [] 0 7 = .error .typeError :=
  ⟨rfl, (dq_next_never_silent_none dqFetch404 2 [] [] 0 7).1 rfl⟩

end Dataset
